import Mathlib

/-!
Verification of the BudgetByte budget-analysis core and ledger store
(`src/app.py`).  Monetary amounts are modelled as rationals, ids as
naturals, and the session state (`all_expenses`, `all_income`,
`next_id`) as a `Ledger` structure.  The Streamlit handlers that mutate
the session state are embedded as pure functions returning the new
ledger together with an `Except`-style outcome.
-/

namespace BudgetByte

/-- An expense record: `{id, year, month, category, forecast, actual, comments}`. -/
structure Expense where
  id : Nat
  year : Int
  month : Int
  category : String
  forecast : ℚ
  actual : ℚ
  comments : String
deriving DecidableEq, Repr

/-- An income record: `{year, month, income, extra_income}`. -/
structure IncomeRecord where
  year : Int
  month : Int
  income : ℚ
  extraIncome : ℚ
deriving DecidableEq, Repr

/-- The session ledger: expense table, income table, id counter. -/
structure Ledger where
  allExpenses : List Expense
  allIncome : List IncomeRecord
  nextId : Nat
deriving DecidableEq, Repr

/-- Error taxonomy of the spec: validation failures and missing ids. -/
inductive Err where
  | validation
  | notFound
deriving DecidableEq, Repr

/-- `suggest_budget_adjustments` (app.py lines 82-89): iterate over the
expenses, appending an overspending warning when `actual > forecast * 1.2`,
else an under-budget note when `actual < forecast * 0.8`. -/
def suggest_budget_adjustments (expenses : List Expense) : List String :=
  expenses.foldl
    (fun suggestions exp =>
      if exp.actual > exp.forecast * 1.2 then
        suggestions ++ ["⚠️ Overspending in " ++ exp.category ++ "! Consider reducing your budget."]
      else if exp.actual < exp.forecast * 0.8 then
        suggestions ++ ["✅ Under budget in " ++ exp.category ++ "! You might reallocate funds to savings."]
      else suggestions)
    []

/-- The per-expense suggestion rule as the spec words it: overspending
warning if `actual > forecast * 1.2`, else under-budget note if
`actual < forecast * 0.8`, else no message. -/
def adjustmentSuggestion (exp : Expense) : Option String :=
  if exp.actual > exp.forecast * 1.2 then
    some ("⚠️ Overspending in " ++ exp.category ++ "! Consider reducing your budget.")
  else if exp.actual < exp.forecast * 0.8 then
    some ("✅ Under budget in " ++ exp.category ++ "! You might reallocate funds to savings.")
  else none

/-- `detect_unusual_spending` (app.py lines 91-99): collect the `actual`
values of expenses whose category matches case-insensitively; if none,
return nothing; otherwise flag the candidate when its `actual` exceeds
1.5 times their mean. -/
def detect_unusual_spending (expenses : List Expense) (new_expense : Expense) : Option String :=
  let category := new_expense.category
  let past_spending :=
    (expenses.filter (fun e => e.category.toLower == category.toLower)).map Expense.actual
  if past_spending = [] then none
  else
    let avg_spending := past_spending.sum / (past_spending.length : ℚ)
    if new_expense.actual > avg_spending * 1.5 then
      some ("⚠️ Unusually high spending in " ++ category ++ " detected!")
    else none

/-- `calculate_budget_score` (app.py lines 101-113), translated statement
by statement: start at 100, subtract 20 on overspend, adjust by the
savings ratio, clamp with `max(0, min(score, 100))`. -/
def calculate_budget_score (expenses : List Expense) (total_income : ℚ) : Int :=
  let total_actual := (expenses.map Expense.actual).sum
  let total_forecast := (expenses.map Expense.forecast).sum
  let overspent := total_actual > total_forecast
  let savings_ratio := if total_income > 0 then (total_income - total_actual) / total_income else 0
  let score : Int := 100
  let score := if overspent then score - 20 else score
  let score :=
    if savings_ratio < 0.1 then score - 30
    else if savings_ratio > 0.2 then score + 10
    else score
  max 0 (min score 100)

/-- The score as the spec words it: an additive formula
`100 - overspend penalty - low-savings penalty + high-savings bonus`
(the bonus only when the penalty did not fire), clamped to `[0, 100]`. -/
def budgetScoreSpec (expenses : List Expense) (total_income : ℚ) : Int :=
  let total_actual := (expenses.map Expense.actual).sum
  let total_forecast := (expenses.map Expense.forecast).sum
  let savings_ratio := if total_income > 0 then (total_income - total_actual) / total_income else 0
  let raw : Int := 100
    - (if total_actual > total_forecast then 20 else 0)
    - (if savings_ratio < 0.1 then 30 else 0)
    + (if ¬ savings_ratio < 0.1 ∧ savings_ratio > 0.2 then 10 else 0)
  min 100 (max 0 raw)

/-- `analyze_budget` (app.py lines 115-123): the suggestions, then (when a
new expense is given) the anomaly message if any, then the score line. -/
def analyze_budget (expenses : List Expense) (total_income : ℚ) (new_expense : Option Expense) : List String :=
  let insights := suggest_budget_adjustments expenses
  let insights :=
    match new_expense with
    | some ne =>
      match detect_unusual_spending expenses ne with
      | some anomaly => insights ++ [anomaly]
      | none => insights
    | none => insights
  insights ++ ["📊 Financial Health Score: " ++ toString (calculate_budget_score expenses total_income) ++ "/100"]

/-- The final line reported by `analyze_budget`. -/
def scoreLine (expenses : List Expense) (total_income : ℚ) : String :=
  "📊 Financial Health Score: " ++ toString (calculate_budget_score expenses total_income) ++ "/100"

/-- `save_income` (app.py lines 72-79): upsert the income record keyed on
`(year, month)` — update the matching rows when one exists, else append. -/
def save_income (l : Ledger) (year month : Int) (income extra_income : ℚ) : Ledger :=
  if l.allIncome.any (fun r => r.year == year && r.month == month) then
    { l with allIncome := l.allIncome.map (fun r =>
        if r.year == year && r.month == month then
          { r with income := income, extraIncome := extra_income }
        else r) }
  else
    { l with allIncome := l.allIncome ++ [⟨year, month, income, extra_income⟩] }

/-- The Update Income handler (app.py lines 180-187): reject negative
values, else upsert via `save_income`. -/
def set_income (l : Ledger) (year month : Int) (income extra_income : ℚ) :
    Ledger × Except Err Unit :=
  if income < 0 ∨ extra_income < 0 then (l, Except.error Err.validation)
  else (save_income l year month income extra_income, Except.ok ())

/-- The Add Expense handler (app.py lines 200-221): reject an empty
category, then negative amounts; otherwise append a record bearing
`next_id`, bump the counter, and report the assigned id. -/
def add_expense (l : Ledger) (year month : Int) (category : String)
    (forecast actual : ℚ) (comments : String) : Ledger × Except Err Nat :=
  if category = "" then (l, Except.error Err.validation)
  else if forecast < 0 ∨ actual < 0 then (l, Except.error Err.validation)
  else
    ({ allExpenses := l.allExpenses ++ [⟨l.nextId, year, month, category, forecast, actual, comments⟩],
       allIncome := l.allIncome,
       nextId := l.nextId + 1 },
     Except.ok l.nextId)

/-- The Save Changes handler (app.py lines 239-246): reject invalid
fields, else overwrite category/forecast/actual/comments on every row
whose id matches — a silent no-op when no row does. -/
def edit_expense (l : Ledger) (id : Nat) (category : String)
    (forecast actual : ℚ) (comments : String) : Ledger × Except Err Unit :=
  if category = "" ∨ forecast < 0 ∨ actual < 0 then (l, Except.error Err.validation)
  else
    ({ l with allExpenses := l.allExpenses.map (fun e =>
        if e.id == id then
          { e with category := category, forecast := forecast, actual := actual, comments := comments }
        else e) },
     Except.ok ())

/-- The Delete Expense handler (app.py lines 248-251): keep exactly the
rows whose id differs. -/
def delete_expense (l : Ledger) (id : Nat) : Ledger :=
  { l with allExpenses := l.allExpenses.filter (fun e => e.id != id) }

/-- `expenses_for`: the Load Data month filter (app.py lines 137-140). -/
def expenses_for (l : Ledger) (year month : Int) : List Expense :=
  l.allExpenses.filter (fun e => e.year == year && e.month == month)

/-- One iteration of the Use Previous Month Template loop (app.py lines
306-313): append a copy of `e` carrying a fresh id and the destination
year/month, and bump the counter. -/
def copyStep (to_year to_month : Int) (acc : Ledger) (e : Expense) : Ledger :=
  { acc with
    allExpenses := acc.allExpenses ++ [{ e with id := acc.nextId, year := to_year, month := to_month }],
    nextId := acc.nextId + 1 }

/-- The Use Previous Month Template handler (app.py lines 297-316), with
source and destination months as parameters as in the spec signature:
copy every source-month expense and return how many were copied. -/
def copy_month (l : Ledger) (from_year from_month to_year to_month : Int) : Ledger × Nat :=
  let template := l.allExpenses.filter (fun e => e.year == from_year && e.month == from_month)
  (template.foldl (copyStep to_year to_month) l, template.length)

/-- The block of records appended by `copy_month`: category, forecast,
actual and comments of each source record kept, ids counting up from
`startId`, year and month replaced by the destination. -/
def freshCopies (startId : Nat) (to_year to_month : Int) : List Expense → List Expense
  | [] => []
  | e :: es =>
    { e with id := startId, year := to_year, month := to_month }
      :: freshCopies (startId + 1) to_year to_month es

/-- Id discipline: every stored expense id is below the `next_id` counter. -/
def IdsBelowNext (l : Ledger) : Prop :=
  ∀ e ∈ l.allExpenses, e.id < l.nextId

/-- A single user action mutating the ledger, as handled by the app. -/
inductive Op where
  | add (year month : Int) (category : String) (forecast actual : ℚ) (comments : String)
  | edit (id : Nat) (category : String) (forecast actual : ℚ) (comments : String)
  | delete (id : Nat)
  | copy (from_year from_month to_year to_month : Int)
  | income (year month : Int) (inc extra : ℚ)

/-- The ledger after one user action (discarding the reported outcome). -/
def applyOp (l : Ledger) : Op → Ledger
  | Op.add y m c f a cm => (add_expense l y m c f a cm).1
  | Op.edit i c f a cm => (edit_expense l i c f a cm).1
  | Op.delete i => delete_expense l i
  | Op.copy fy fm ty tm => (copy_month l fy fm ty tm).1
  | Op.income y m inc ex => (set_income l y m inc ex).1

end BudgetByte

namespace BudgetByte

theorem suggest_foldl_eq (expenses : List Expense) :
    ∀ acc : List String,
      expenses.foldl
        (fun suggestions exp =>
          if exp.actual > exp.forecast * 1.2 then
            suggestions ++ ["⚠️ Overspending in " ++ exp.category ++ "! Consider reducing your budget."]
          else if exp.actual < exp.forecast * 0.8 then
            suggestions ++ ["✅ Under budget in " ++ exp.category ++ "! You might reallocate funds to savings."]
          else suggestions)
        acc
      = acc ++ expenses.filterMap adjustmentSuggestion := by
  induction expenses with
  | nil => intro acc; simp
  | cons e es ih =>
    intro acc
    simp only [List.foldl_cons, List.filterMap_cons, adjustmentSuggestion]
    by_cases h1 : e.actual > e.forecast * 1.2
    · simp [h1, ih, List.append_assoc]
    · by_cases h2 : e.actual < e.forecast * 0.8
      · simp [h1, h2, ih, List.append_assoc]
      · simp [h1, h2, ih]

/-- C1: the score function of the code agrees with the spec reference
definition (additive penalties and bonus, clamped to `[0, 100]`) on every
expense list and every total income. -/
theorem calculate_budget_score_eq_spec (expenses : List Expense) (total_income : ℚ) :
    calculate_budget_score expenses total_income = budgetScoreSpec expenses total_income := by
  unfold calculate_budget_score budgetScoreSpec
  by_cases hover : (expenses.map Expense.actual).sum > (expenses.map Expense.forecast).sum <;>
    by_cases hlow :
      (if total_income > 0 then (total_income - (expenses.map Expense.actual).sum) / total_income else 0) < 0.1 <;>
    by_cases hhigh :
      (if total_income > 0 then (total_income - (expenses.map Expense.actual).sum) / total_income else 0) > 0.2 <;>
    simp [hover, hlow, hhigh]

/-- C2: `suggest_budget_adjustments` returns, in input order, exactly the
messages given by the per-expense rule (overspending warning when
`actual > forecast * 1.2`, else under-budget note when
`actual < forecast * 0.8`), and an expense whose actual lies within
`[0.8, 1.2]` times its forecast contributes no message. -/
theorem suggest_budget_adjustments_spec (expenses : List Expense) :
    suggest_budget_adjustments expenses = expenses.filterMap adjustmentSuggestion
    ∧ ∀ e ∈ expenses, e.forecast * 0.8 ≤ e.actual → e.actual ≤ e.forecast * 1.2 →
        adjustmentSuggestion e = none := by
  constructor
  · exact suggest_foldl_eq expenses []
  · intro e _ hlo hhi
    unfold adjustmentSuggestion
    rw [if_neg (by exact not_lt.mpr hhi), if_neg (by exact not_lt.mpr hlo)]

/-- Witness for C2 at the spec examples: Rent 1000/1300 overspends,
Food 200/100 is under budget, and 100/105 is in the neutral band. -/
theorem suggest_budget_adjustments_spec_witness :
    suggest_budget_adjustments
        [⟨1, 2025, 1, "Rent", 1000, 1300, ""⟩, ⟨2, 2025, 1, "Food", 200, 100, ""⟩]
      = ["⚠️ Overspending in Rent! Consider reducing your budget.",
         "✅ Under budget in Food! You might reallocate funds to savings."]
    ∧ adjustmentSuggestion ⟨3, 2025, 1, "Misc", 100, 105, ""⟩ = none := by
  refine ⟨?_, ?_⟩
  · rw [(suggest_budget_adjustments_spec
      [⟨1, 2025, 1, "Rent", 1000, 1300, ""⟩, ⟨2, 2025, 1, "Food", 200, 100, ""⟩]).1]
    norm_num [List.filterMap_cons, adjustmentSuggestion]
    exact ⟨rfl, rfl⟩
  · exact (suggest_budget_adjustments_spec [⟨3, 2025, 1, "Misc", 100, 105, ""⟩]).2
      ⟨3, 2025, 1, "Misc", 100, 105, ""⟩ (by simp) (by norm_num) (by norm_num)

/-- C3: `detect_unusual_spending` collects the past actuals of expenses
matching the candidate's category case-insensitively; it returns nothing
when there are none, and otherwise returns the anomaly message naming the
category exactly when the candidate's actual exceeds 1.5 times their mean. -/
theorem detect_unusual_spending_spec (expenses : List Expense) (cand : Expense) :
    ((expenses.filter (fun e => e.category.toLower == cand.category.toLower)).map Expense.actual = [] →
        detect_unusual_spending expenses cand = none)
    ∧ ((expenses.filter (fun e => e.category.toLower == cand.category.toLower)).map Expense.actual ≠ [] →
        cand.actual >
            ((expenses.filter (fun e => e.category.toLower == cand.category.toLower)).map Expense.actual).sum
              / (((expenses.filter (fun e => e.category.toLower == cand.category.toLower)).map Expense.actual).length : ℚ)
              * 1.5 →
        detect_unusual_spending expenses cand
          = some ("⚠️ Unusually high spending in " ++ cand.category ++ " detected!"))
    ∧ ((expenses.filter (fun e => e.category.toLower == cand.category.toLower)).map Expense.actual ≠ [] →
        ¬ cand.actual >
            ((expenses.filter (fun e => e.category.toLower == cand.category.toLower)).map Expense.actual).sum
              / (((expenses.filter (fun e => e.category.toLower == cand.category.toLower)).map Expense.actual).length : ℚ)
              * 1.5 →
        detect_unusual_spending expenses cand = none) := by
  unfold detect_unusual_spending
  by_cases hp :
      (expenses.filter (fun e => e.category.toLower == cand.category.toLower)).map Expense.actual = []
  · exact ⟨fun _ => by simp [hp], fun hne => absurd hp hne, fun hne => absurd hp hne⟩
  · refine ⟨fun h => absurd h hp, fun _ hgt => ?_, fun _ hngt => ?_⟩
    · rw [if_neg hp, if_pos hgt]
    · rw [if_neg hp, if_neg hngt]

/-- Witness for C3 at the spec example: past Food actuals 50, 60, 55
(mean 55); a candidate actual of 90 exceeds 82.5 and is flagged, while a
candidate actual of 80 is not. -/
theorem detect_unusual_spending_spec_witness :
    detect_unusual_spending
        [⟨1, 2025, 1, "Food", 40, 50, ""⟩, ⟨2, 2025, 1, "Food", 40, 60, ""⟩, ⟨3, 2025, 1, "Food", 40, 55, ""⟩]
        ⟨4, 2025, 2, "Food", 40, 90, ""⟩
      = some "⚠️ Unusually high spending in Food detected!"
    ∧ detect_unusual_spending
        [⟨1, 2025, 1, "Food", 40, 50, ""⟩, ⟨2, 2025, 1, "Food", 40, 60, ""⟩, ⟨3, 2025, 1, "Food", 40, 55, ""⟩]
        ⟨5, 2025, 2, "Food", 40, 80, ""⟩
      = none := by
  constructor
  · exact ((detect_unusual_spending_spec
      [⟨1, 2025, 1, "Food", 40, 50, ""⟩, ⟨2, 2025, 1, "Food", 40, 60, ""⟩, ⟨3, 2025, 1, "Food", 40, 55, ""⟩]
      ⟨4, 2025, 2, "Food", 40, 90, ""⟩).2.1 (by simp)
      (by norm_num [List.filter, List.sum_cons])).trans rfl
  · exact (detect_unusual_spending_spec
      [⟨1, 2025, 1, "Food", 40, 50, ""⟩, ⟨2, 2025, 1, "Food", 40, 60, ""⟩, ⟨3, 2025, 1, "Food", 40, 55, ""⟩]
      ⟨5, 2025, 2, "Food", 40, 80, ""⟩).2.2 (by simp)
      (by norm_num [List.filter, List.sum_cons])

/-- C4: `analyze_budget` is the suggestions, then (only when a new expense
is given) the anomaly message if any, then a single final score line, which
is always present and always last. -/
theorem analyze_budget_spec (expenses : List Expense) (total_income : ℚ) (new_expense : Option Expense) :
    analyze_budget expenses total_income new_expense
      = suggest_budget_adjustments expenses
        ++ (new_expense.bind (detect_unusual_spending expenses)).toList
        ++ [scoreLine expenses total_income]
    ∧ (analyze_budget expenses total_income new_expense).getLast?
      = some (scoreLine expenses total_income) := by
  have heq : analyze_budget expenses total_income new_expense
      = suggest_budget_adjustments expenses
        ++ (new_expense.bind (detect_unusual_spending expenses)).toList
        ++ [scoreLine expenses total_income] := by
    cases new_expense with
    | none => simp [analyze_budget, scoreLine]
    | some ne =>
      cases h : detect_unusual_spending expenses ne with
      | none => simp [analyze_budget, scoreLine, h]
      | some anomaly => simp [analyze_budget, scoreLine, h]
  exact ⟨heq, by rw [heq, List.getLast?_concat]⟩

/-- C10: on an empty expense list the score is 100 for positive income,
70 for zero income, and never below 70. -/
theorem calculate_budget_score_empty (total_income : ℚ) :
    (0 < total_income → calculate_budget_score [] total_income = 100)
    ∧ (total_income = 0 → calculate_budget_score [] total_income = 70)
    ∧ 70 ≤ calculate_budget_score [] total_income := by
  unfold calculate_budget_score
  by_cases hpos : total_income > 0
  · have hdiv : total_income / total_income = 1 := div_self (ne_of_gt hpos)
    refine ⟨fun _ => ?_, fun h0 => absurd (h0 ▸ hpos) (lt_irrefl 0), ?_⟩ <;>
      simp [hpos, hdiv] <;> norm_num
  · refine ⟨fun h => absurd h hpos, fun _ => ?_, ?_⟩ <;> simp [hpos] <;> norm_num

/-- Witness for C10 at incomes 1 and 0. -/
theorem calculate_budget_score_empty_witness :
    calculate_budget_score [] 1 = 100 ∧ calculate_budget_score [] 0 = 70 :=
  ⟨(calculate_budget_score_empty 1).1 one_pos, (calculate_budget_score_empty 0).2.1 rfl⟩

/-- C5: `add_expense` with an empty category or a negative amount, and
`set_income` with a negative income or extra income, reject with a
validation error and return the ledger (expense table, income table and
id counter) exactly as it was. -/
theorem add_set_income_validation (l : Ledger) (year month : Int) (category : String)
    (forecast actual income extra_income : ℚ) (comments : String) :
    ((category = "" ∨ forecast < 0 ∨ actual < 0) →
      add_expense l year month category forecast actual comments
        = (l, Except.error Err.validation))
    ∧ ((income < 0 ∨ extra_income < 0) →
      set_income l year month income extra_income = (l, Except.error Err.validation)) := by
  constructor
  · intro h
    unfold add_expense
    by_cases hc : category = ""
    · rw [if_pos hc]
    · rw [if_neg hc, if_pos (h.resolve_left hc)]
  · intro h
    unfold set_income
    rw [if_pos h]

/-- Witness for C5: an empty category and a negative income are both
rejected on a concrete ledger, which is returned untouched. -/
theorem add_set_income_validation_witness :
    add_expense ⟨[], [], 1⟩ 2025 1 "" 5 5 "note" = (⟨[], [], 1⟩, Except.error Err.validation)
    ∧ set_income ⟨[], [], 1⟩ 2025 1 (-1) 0 = (⟨[], [], 1⟩, Except.error Err.validation) :=
  ⟨(add_set_income_validation ⟨[], [], 1⟩ 2025 1 "" 5 5 0 0 "note").1 (Or.inl rfl),
   (add_set_income_validation ⟨[], [], 1⟩ 2025 1 "x" 0 0 (-1) 0 "").2 (Or.inl (by norm_num))⟩

/-- C6 counterexample: on a ledger with no expense rows, editing id 1
with valid fields reports success and leaves the ledger unchanged — it
does not fail with a not-found error as the claim states. -/
theorem edit_expense_absent_id_counterexample :
    edit_expense ⟨[], [], 1⟩ 1 "Food" 2 3 "x" = (⟨[], [], 1⟩, Except.ok ())
    ∧ (edit_expense ⟨[], [], 1⟩ 1 "Food" 2 3 "x").2 ≠ Except.error Err.notFound := by
  constructor
  · unfold edit_expense
    rw [if_neg (by push_neg; refine ⟨by simp, by norm_num, by norm_num⟩)]
    rfl
  · unfold edit_expense
    rw [if_neg (by push_neg; refine ⟨by simp, by norm_num, by norm_num⟩)]
    exact fun h => Except.noConfusion h

/-- C6 as amended: `edit_expense` with valid fields on an id absent from
the expense table silently succeeds as a no-op, returning the ledger
unchanged; no not-found error is signalled. -/
theorem edit_expense_absent_id_noop (l : Ledger) (id : Nat) (category : String)
    (forecast actual : ℚ) (comments : String)
    (hc : category ≠ "") (hf : 0 ≤ forecast) (ha : 0 ≤ actual)
    (habs : ∀ e ∈ l.allExpenses, e.id ≠ id) :
    edit_expense l id category forecast actual comments = (l, Except.ok ()) := by
  unfold edit_expense
  rw [if_neg (by push_neg; exact ⟨hc, hf, ha⟩)]
  have hmap : l.allExpenses.map (fun e =>
      if e.id == id then
        { e with category := category, forecast := forecast, actual := actual, comments := comments }
      else e) = l.allExpenses := by
    have hcongr : ∀ e ∈ l.allExpenses,
        (if e.id == id then
          { e with category := category, forecast := forecast, actual := actual, comments := comments }
        else e) = (fun e : Expense => e) e := fun e he => by simp [habs e he]
    rw [List.map_congr_left hcongr, List.map_id']
  rw [hmap]

/-- Witness for the amended C6 on a one-row ledger and an absent id. -/
theorem edit_expense_absent_id_noop_witness :
    edit_expense ⟨[⟨1, 2025, 1, "Rent", 1000, 950, ""⟩], [], 2⟩ 7 "Rent" 1000 900 ""
      = (⟨[⟨1, 2025, 1, "Rent", 1000, 950, ""⟩], [], 2⟩, Except.ok ()) :=
  edit_expense_absent_id_noop ⟨[⟨1, 2025, 1, "Rent", 1000, 950, ""⟩], [], 2⟩ 7 "Rent" 1000 900 ""
    (by simp) (by norm_num) (by norm_num)
    (by intro e he; simp only [List.mem_singleton] at he; subst he; simp)

theorem countP_bne_add_countP_beq (L : List Expense) (i : Nat) :
    L.countP (fun e => e.id != i) + L.countP (fun e => e.id == i) = L.length := by
  induction L with
  | nil => rfl
  | cons e es ih =>
    simp only [List.countP_cons, List.length_cons]
    by_cases h : e.id = i
    · simp [h]; omega
    · simp [h]; omega

/-- C8: deleting an id is idempotent and never errs (it is a total
operation): a second delete of the same id is a no-op, the deleted id
never appears in any month view afterwards, deleting an absent id leaves
the ledger unchanged, and under the unique-id invariant at most one
record is removed. -/
theorem delete_expense_spec (l : Ledger) (id : Nat) :
    delete_expense (delete_expense l id) id = delete_expense l id
    ∧ (∀ (year month : Int), ∀ e ∈ expenses_for (delete_expense l id) year month, e.id ≠ id)
    ∧ ((∀ e ∈ l.allExpenses, e.id ≠ id) → delete_expense l id = l)
    ∧ ((l.allExpenses.map Expense.id).Nodup →
        l.allExpenses.length ≤ (delete_expense l id).allExpenses.length + 1) := by
  refine ⟨?_, ?_, ?_, ?_⟩
  · simp [delete_expense, List.filter_filter]
  · intro year month e he
    have hmem : e ∈ l.allExpenses.filter (fun e => e.id != id) :=
      (List.mem_filter.mp he).1
    simpa using (List.mem_filter.mp hmem).2
  · intro habs
    have : l.allExpenses.filter (fun e => e.id != id) = l.allExpenses :=
      List.filter_eq_self.mpr (fun e he => by simpa using habs e he)
    simp [delete_expense, this]
  · intro hnd
    have hcount : (l.allExpenses.map Expense.id).count id ≤ 1 :=
      List.nodup_iff_count_le_one.mp hnd id
    have hcount2 : l.allExpenses.countP (fun e => e.id == id) ≤ 1 := by
      rwa [List.count_eq_countP, List.countP_map] at hcount
    have hlen : (delete_expense l id).allExpenses.length
        = l.allExpenses.countP (fun e => e.id != id) := by
      simp [delete_expense, ← List.countP_eq_length_filter]
    rw [hlen, ← countP_bne_add_countP_beq l.allExpenses id]
    omega

/-- Witness for C8 on a one-row ledger: deleting the absent id 2 twice is
the identity, and the unique-id bound holds. -/
theorem delete_expense_spec_witness :
    delete_expense ⟨[⟨1, 2025, 1, "Rent", 1000, 950, ""⟩], [], 2⟩ 2
      = ⟨[⟨1, 2025, 1, "Rent", 1000, 950, ""⟩], [], 2⟩ :=
  (delete_expense_spec ⟨[⟨1, 2025, 1, "Rent", 1000, 950, ""⟩], [], 2⟩ 2).2.2.1
    (by intro e he; simp only [List.mem_singleton] at he; subst he; simp)

theorem copyStep_foldl (to_year to_month : Int) :
    ∀ (template : List Expense) (l : Ledger),
      (template.foldl (copyStep to_year to_month) l).allExpenses
          = l.allExpenses ++ freshCopies l.nextId to_year to_month template
      ∧ (template.foldl (copyStep to_year to_month) l).nextId = l.nextId + template.length
      ∧ (template.foldl (copyStep to_year to_month) l).allIncome = l.allIncome := by
  intro template
  induction template with
  | nil => intro l; simp [freshCopies]
  | cons e es ih =>
    intro l
    obtain ⟨h1, h2, h3⟩ := ih (copyStep to_year to_month l e)
    refine ⟨?_, ?_, ?_⟩
    · rw [List.foldl_cons, h1]
      simp [copyStep, freshCopies, List.append_assoc]
    · rw [List.foldl_cons, h2]
      simp [copyStep]
      omega
    · rw [List.foldl_cons, h3]
      rfl

theorem freshCopies_id_bounds (to_year to_month : Int) :
    ∀ (es : List Expense) (startId : Nat) (e : Expense),
      e ∈ freshCopies startId to_year to_month es →
        startId ≤ e.id ∧ e.id < startId + es.length := by
  intro es
  induction es with
  | nil => intro s e h; simp [freshCopies] at h
  | cons x xs ih =>
    intro s e h
    simp only [freshCopies, List.mem_cons] at h
    rcases h with h | h
    · subst h; simp
    · obtain ⟨h1, h2⟩ := ih (s + 1) e h
      simp only [List.length_cons]
      omega

/-- C9: `copy_month` reports the size of the source month, appends to the
expense table exactly the fresh copies of the source-month records (ids
counting up from the current counter, year and month replaced by the
destination, everything else preserved), advances the counter by that
count, leaves the income table alone, and does nothing when the source
month is empty. -/
theorem copy_month_spec (l : Ledger) (from_year from_month to_year to_month : Int) :
    (copy_month l from_year from_month to_year to_month).2
        = (l.allExpenses.filter (fun e => e.year == from_year && e.month == from_month)).length
    ∧ (copy_month l from_year from_month to_year to_month).1.allExpenses
        = l.allExpenses ++ freshCopies l.nextId to_year to_month
            (l.allExpenses.filter (fun e => e.year == from_year && e.month == from_month))
    ∧ (copy_month l from_year from_month to_year to_month).1.nextId
        = l.nextId
          + (l.allExpenses.filter (fun e => e.year == from_year && e.month == from_month)).length
    ∧ (copy_month l from_year from_month to_year to_month).1.allIncome = l.allIncome
    ∧ (l.allExpenses.filter (fun e => e.year == from_year && e.month == from_month) = [] →
        copy_month l from_year from_month to_year to_month = (l, 0)) := by
  obtain ⟨h1, h2, h3⟩ := copyStep_foldl to_year to_month
    (l.allExpenses.filter (fun e => e.year == from_year && e.month == from_month)) l
  refine ⟨rfl, h1, h2, h3, fun hempty => ?_⟩
  simp [copy_month, hempty]

/-- Witness for C9: copying from an empty source month on an empty ledger
returns the ledger unchanged together with a count of 0. -/
theorem copy_month_spec_witness :
    copy_month ⟨[], [], 1⟩ 2024 12 2025 1 = (⟨[], [], 1⟩, 0) :=
  (copy_month_spec ⟨[], [], 1⟩ 2024 12 2025 1).2.2.2.2 rfl

theorem applyOp_preserves_ids (l : Ledger) (op : Op) (h : IdsBelowNext l) :
    IdsBelowNext (applyOp l op) ∧ l.nextId ≤ (applyOp l op).nextId := by
  cases op with
  | add y m c f a cm =>
    show IdsBelowNext (add_expense l y m c f a cm).1
      ∧ l.nextId ≤ (add_expense l y m c f a cm).1.nextId
    unfold add_expense
    by_cases hc : c = ""
    · rw [if_pos hc]; exact ⟨h, le_refl _⟩
    · rw [if_neg hc]
      by_cases hv : f < 0 ∨ a < 0
      · rw [if_pos hv]; exact ⟨h, le_refl _⟩
      · rw [if_neg hv]
        refine ⟨?_, Nat.le_succ _⟩
        intro e he
        rcases List.mem_append.mp he with he | he
        · exact Nat.lt_succ_of_lt (h e he)
        · simp only [List.mem_singleton] at he
          subst he
          exact Nat.lt_succ_self _
  | edit i c f a cm =>
    show IdsBelowNext (edit_expense l i c f a cm).1
      ∧ l.nextId ≤ (edit_expense l i c f a cm).1.nextId
    unfold edit_expense
    by_cases hv : c = "" ∨ f < 0 ∨ a < 0
    · rw [if_pos hv]; exact ⟨h, le_refl _⟩
    · rw [if_neg hv]
      refine ⟨?_, le_refl _⟩
      intro e he
      obtain ⟨x, hx, hxe⟩ := List.mem_map.mp he
      have hid : e.id = x.id := by
        subst hxe
        by_cases hxi : x.id == i <;> simp [hxi]
      rw [hid]
      exact h x hx
  | delete i =>
    show IdsBelowNext (delete_expense l i) ∧ l.nextId ≤ (delete_expense l i).nextId
    refine ⟨?_, le_refl _⟩
    intro e he
    exact h e (List.mem_filter.mp he).1
  | copy fy fm ty tm =>
    obtain ⟨h1, h2, _⟩ := copyStep_foldl ty tm
      (l.allExpenses.filter (fun e => e.year == fy && e.month == fm)) l
    show IdsBelowNext
        ((l.allExpenses.filter (fun e => e.year == fy && e.month == fm)).foldl (copyStep ty tm) l)
      ∧ l.nextId ≤
        ((l.allExpenses.filter (fun e => e.year == fy && e.month == fm)).foldl (copyStep ty tm) l).nextId
    constructor
    · intro e he
      rw [h2]
      rw [h1] at he
      rcases List.mem_append.mp he with he | he
      · exact lt_of_lt_of_le (h e he) (Nat.le_add_right _ _)
      · exact (freshCopies_id_bounds ty tm _ l.nextId e he).2
    · rw [h2]
      exact Nat.le_add_right _ _
  | income y m inc ex =>
    show IdsBelowNext (set_income l y m inc ex).1
      ∧ l.nextId ≤ (set_income l y m inc ex).1.nextId
    unfold set_income
    by_cases hv : inc < 0 ∨ ex < 0
    · rw [if_pos hv]; exact ⟨h, le_refl _⟩
    · rw [if_neg hv]
      unfold save_income
      by_cases hm : l.allIncome.any (fun r => r.year == y && r.month == m)
      · rw [if_pos hm]; exact ⟨h, le_refl _⟩
      · rw [if_neg hm]; exact ⟨h, le_refl _⟩

/-- C7: starting from any ledger whose stored ids are below the counter,
any sequence of user actions keeps every stored id below the counter and
never decreases the counter; moreover a successful `add_expense` assigns
exactly the current counter value as the new id, an id strictly greater
than every id in the table, and bumps the counter past it — so no
assigned id is ever assigned again, even after a deletion. -/
theorem next_id_strictly_increases (l : Ledger) (ops : List Op) (h : IdsBelowNext l) :
    IdsBelowNext (ops.foldl applyOp l)
    ∧ l.nextId ≤ (ops.foldl applyOp l).nextId
    ∧ ∀ (year month : Int) (category : String) (forecast actual : ℚ) (comments : String)
        (l' : Ledger) (i : Nat),
        add_expense (ops.foldl applyOp l) year month category forecast actual comments
            = (l', Except.ok i) →
        i = (ops.foldl applyOp l).nextId
        ∧ (∀ e ∈ (ops.foldl applyOp l).allExpenses, e.id < i)
        ∧ l'.nextId = i + 1 := by
  have hseq : ∀ (ops : List Op) (l : Ledger), IdsBelowNext l →
      IdsBelowNext (ops.foldl applyOp l) ∧ l.nextId ≤ (ops.foldl applyOp l).nextId := by
    intro ops
    induction ops with
    | nil => intro l hl; exact ⟨hl, le_refl _⟩
    | cons op rest ih =>
      intro l hl
      obtain ⟨h1, h2⟩ := applyOp_preserves_ids l op hl
      obtain ⟨h3, h4⟩ := ih (applyOp l op) h1
      exact ⟨h3, le_trans h2 h4⟩
  obtain ⟨hwf, hmono⟩ := hseq ops l h
  refine ⟨hwf, hmono, ?_⟩
  intro year month category forecast actual comments l' i hadd
  unfold add_expense at hadd
  by_cases hc : category = ""
  · rw [if_pos hc] at hadd
    exact absurd (congrArg Prod.snd hadd) (by simp)
  · rw [if_neg hc] at hadd
    by_cases hv : forecast < 0 ∨ actual < 0
    · rw [if_pos hv] at hadd
      exact absurd (congrArg Prod.snd hadd) (by simp)
    · rw [if_neg hv] at hadd
      have hi : i = (ops.foldl applyOp l).nextId := by
        have hsnd := congrArg Prod.snd hadd
        simpa using hsnd.symm
      have hl' : l'.nextId = (ops.foldl applyOp l).nextId + 1 := by
        have hfst := congrArg Prod.fst hadd
        simp only [Prod.fst] at hfst
        rw [← hfst]
      exact ⟨hi, fun e he => hi ▸ hwf e he, by rw [hl', hi]⟩

/-- Witness for C7: from the empty ledger, an add followed by a delete of
the assigned id keeps every stored id below the counter and leaves the
counter at least where it started. -/
theorem next_id_strictly_increases_witness :
    IdsBelowNext ([Op.add 2025 1 "Rent" 100 90 "", Op.delete 1].foldl applyOp ⟨[], [], 1⟩)
    ∧ (1 : Nat) ≤ ([Op.add 2025 1 "Rent" 100 90 "", Op.delete 1].foldl applyOp ⟨[], [], 1⟩).nextId := by
  have h := next_id_strictly_increases ⟨[], [], 1⟩ [Op.add 2025 1 "Rent" 100 90 "", Op.delete 1]
    (by intro e he; simp at he)
  exact ⟨h.1, h.2.1⟩

end BudgetByte
